import Mathlib

/-!
# Verification of the devcli deployment-tracking subsystem

Shallow embedding of the reconciliation subsystem of `20uf/devcli`:

* the `TrackedDeployment` entity (`internal/deployment/domain/tracked_deployment.go`),
* the file-based store (`internal/deployment/infra/file_tracker_repository.go`),
* the reconciliation engine (`internal/deployment/application/status_orchestrator.go`).

Modelling conventions:

* Go `time.Time` values are modelled as `Int` Unix seconds; `time.Duration`
  arguments are `Int` seconds.  Every operation that calls `time.Now()` in Go
  takes an explicit `now : Int` argument.  The `Save` path converts timestamps
  with `.Unix()`, which is the identity in this seconds-based model.
* Go string-typed enums (`RunStatus`, `RunConclusion`) are `String`, as in the
  source, where a JSON file can carry an arbitrary status string.
* The store directory is a finite association list from file base name
  (the run id; files are named `<id>.json`) to file content.  A content is
  either a parseable `trackedRecord` or a corrupt file (one whose bytes fail
  `json.Unmarshal`).  Non-`.json` entries and subdirectories are skipped by
  the Go `List` before any parsing and are omitted from the model.
  Environmental I/O failures (permission errors, disk full) are outside the
  model: in the model `ReadDir` on a missing directory yields the empty
  listing, as the Go code maps `os.IsNotExist` to an empty result, and
  `WriteFile`/`Remove` succeed.
-/

deriving instance DecidableEq for Except

/-- Go `domain.RunStatus` is a string type. -/
abbrev RunStatus := String

/-- Go `domain.RunConclusion` is a string type. -/
abbrev RunConclusion := String

def RunStatusQueued : RunStatus := "queued"

def RunStatusInProgress : RunStatus := "in_progress"

def RunStatusCompleted : RunStatus := "completed"

def RunStatusUnknown : RunStatus := "unknown"

def RunConclusionSuccess : RunConclusion := "success"

def RunConclusionFailure : RunConclusion := "failure"

def RunConclusionCancelled : RunConclusion := "cancelled"

def RunConclusionNeutral : RunConclusion := "neutral"

def RunConclusionSkipped : RunConclusion := "skipped"

def RunConclusionUnknown : RunConclusion := "unknown"

/-- Go `domain.Workflow`: a value object identified by name, with an optional id. -/
structure Workflow where
  name : String
  id : String
deriving DecidableEq, Repr

/-- Go `domain.NewWorkflow`: rejects the empty name with `ErrInvalidWorkflow`. -/
def NewWorkflow (name : String) : Except String Workflow :=
  if name = "" then .error "invalid workflow" else .ok { name := name, id := "" }

/-- Go `domain.TrackedDeployment`: the locally owned mirror of a remote run.
`startedAt` is in Unix seconds; `completedAt` models the Go `*time.Time`. -/
structure TrackedDeployment where
  id : String
  runID : String
  workflow : Workflow
  branch : String
  status : RunStatus
  conclusion : RunConclusion
  startedAt : Int
  completedAt : Option Int
  repo : String
deriving DecidableEq, Repr

/-- Go `domain.NewTrackedDeployment`: status starts `queued`, `startedAt` is the
clock reading (`time.Now()`), conclusion is the zero value `""`, and
`completedAt` is nil. -/
def NewTrackedDeployment (runID : String) (workflow : Workflow)
    (branch : String) (repo : String) (now : Int) : TrackedDeployment :=
  { id := runID
    runID := runID
    workflow := workflow
    branch := branch
    status := RunStatusQueued
    conclusion := ""
    startedAt := now
    completedAt := none
    repo := repo }

namespace TrackedDeployment

/-- Go `TrackedDeployment.UpdateStatus`: overwrites the status unconditionally. -/
def UpdateStatus (td : TrackedDeployment) (status : RunStatus) : TrackedDeployment :=
  { td with status := status }

/-- Go `TrackedDeployment.UpdateConclusion`: sets the conclusion, forces status
to completed, and stamps `completedAt` with `time.Now()` — unconditionally:
the source has no nil guard on `completedAt` (unlike `Run.UpdateConclusion`). -/
def UpdateConclusion (td : TrackedDeployment) (conclusion : RunConclusion)
    (now : Int) : TrackedDeployment :=
  { td with conclusion := conclusion, status := RunStatusCompleted, completedAt := some now }

/-- Go `TrackedDeployment.IsActive`: status is in-progress or queued. -/
def IsActive (td : TrackedDeployment) : Bool :=
  td.status == RunStatusInProgress || td.status == RunStatusQueued

/-- Go `TrackedDeployment.IsCompleted`. -/
def IsCompleted (td : TrackedDeployment) : Bool :=
  td.status == RunStatusCompleted

/-- Go `TrackedDeployment.IsSuccess`. -/
def IsSuccess (td : TrackedDeployment) : Bool :=
  td.conclusion == RunConclusionSuccess

/-- Go `TrackedDeployment.IsFailed`. -/
def IsFailed (td : TrackedDeployment) : Bool :=
  td.conclusion == RunConclusionFailure

/-- Go `TrackedDeployment.IsCancelled`. -/
def IsCancelled (td : TrackedDeployment) : Bool :=
  td.conclusion == RunConclusionCancelled

/-- Go `TrackedDeployment.ElapsedTime`: completion minus start when completed,
otherwise `time.Since(startedAt)`. -/
def ElapsedTime (td : TrackedDeployment) (now : Int) : Int :=
  match td.completedAt with
  | some c => c - td.startedAt
  | none => now - td.startedAt

/-- Go `TrackedDeployment.IsStale`: branches on whether `completedAt` is nil,
comparing the elapsed time strictly against `maxAge`. -/
def IsStale (td : TrackedDeployment) (maxAge : Int) (now : Int) : Bool :=
  match td.completedAt with
  | some c => decide (now - c > maxAge)
  | none => decide (now - td.startedAt > maxAge)

end TrackedDeployment

/-- Go `domain.Run`: the authoritative remote execution entity.  Only status,
conclusion and identity are read by the reconciliation engine. -/
structure Run where
  id : String
  number : Int
  status : RunStatus
  conclusion : RunConclusion
  branch : String
  createdAt : Int
  startedAt : Option Int
  completedAt : Option Int
  url : String
deriving DecidableEq, Repr

/-- Go `domain.NewRun`: conclusion starts at its zero value, timestamps nil. -/
def NewRun (id : String) (number : Int) (status : RunStatus) (branch : String)
    (url : String) (now : Int) : Run :=
  { id := id
    number := number
    status := status
    conclusion := ""
    branch := branch
    createdAt := now
    startedAt := none
    completedAt := none
    url := url }

/-! ## File-based store (`infra/file_tracker_repository.go`) -/

/-- Go `infra.trackedRecord`: the JSON-serialisable form of a tracked
deployment.  `StartedAt`/`CompletedAt` are Unix seconds, as written by
`Save` via `.Unix()`. -/
structure TrackedRecord where
  ID : String
  RunID : String
  Workflow : String
  Branch : String
  Status : String
  Conclusion : String
  StartedAt : Int
  CompletedAt : Option Int
  Repo : String
deriving DecidableEq, Repr

/-- The content of one `<id>.json` file in the store directory: either bytes
that `json.Unmarshal` parses into a `trackedRecord`, or corrupt bytes. -/
inductive FileContent where
  | valid (r : TrackedRecord)
  | corrupt
deriving DecidableEq, Repr

/-- The store directory: an association list from file base name (the id;
the file on disk is `<id>.json`) to file content. -/
abbrev Store := List (String × FileContent)

/-- The record `Save` marshals from a deployment (the body of
`FileTrackerRepository.Save` before writing). -/
def toRecord (td : TrackedDeployment) : TrackedRecord :=
  { ID := td.id
    RunID := td.runID
    Workflow := td.workflow.name
    Branch := td.branch
    Status := td.status
    Conclusion := td.conclusion
    StartedAt := td.startedAt
    CompletedAt := td.completedAt
    Repo := td.repo }

/-- Writing file `name.json`: overwrite in place if present, else create. -/
def storeWrite (store : Store) (name : String) (content : FileContent) : Store :=
  match store with
  | [] => [(name, content)]
  | (n, c) :: rest =>
    if n = name then (name, content) :: rest else (n, c) :: storeWrite rest name content

/-- Go `FileTrackerRepository.Save`: marshals the record and writes
`<id>.json` (an upsert by identifier). -/
def fileSave (store : Store) (td : TrackedDeployment) : Store :=
  storeWrite store td.id (.valid (toRecord td))

/-- Go `FileTrackerRepository.Remove`: deletes `<id>.json`; a missing file
(`os.IsNotExist`) is a no-op success, so in the model removal is total. -/
def fileRemove (store : Store) (id : String) : Store :=
  store.filter (fun e => e.1 ≠ id)

/-- The record-to-entity reconstruction inside
`FileTrackerRepository.loadFromFile`, given parsed record contents: it
validates the workflow name, then rebuilds the entity with
`NewTrackedDeployment` (stamping `startedAt := time.Now()` — the load time,
not `record.StartedAt`), applies `UpdateStatus(record.Status)`, and, when the
stored conclusion is non-empty, `UpdateConclusion(record.Conclusion)` (which
stamps `completedAt` with the load time, not `record.CompletedAt`). -/
def loadRecord (r : TrackedRecord) (now : Int) : Except String TrackedDeployment :=
  match NewWorkflow r.Workflow with
  | .error e => .error e
  | .ok wf =>
    let td := NewTrackedDeployment r.RunID wf r.Branch r.Repo now
    let td := td.UpdateStatus r.Status
    let td := if r.Conclusion ≠ "" then td.UpdateConclusion r.Conclusion now else td
    .ok td

/-- Go `FileTrackerRepository.loadFromFile` on an existing file: corrupt bytes
fail `json.Unmarshal`; parsed records go through `loadRecord`. -/
def loadContent (c : FileContent) (now : Int) : Except String TrackedDeployment :=
  match c with
  | .corrupt => .error "failed to unmarshal tracked deployment"
  | .valid r => loadRecord r now

/-- Go `FileTrackerRepository.List`: scans the directory, loads each `.json`
file, and skips (continues past) any file whose load fails.  A missing
directory yields the empty listing (`os.IsNotExist` → empty, no error); other
I/O failures are environmental and outside the model, so `List` is total. -/
def fileList (store : Store) (now : Int) : List TrackedDeployment :=
  store.foldl
    (fun acc e =>
      match loadContent e.2 now with
      | .ok td => acc ++ [td]
      | .error _ => acc)
    []

/-- Go `FileTrackerRepository.GetByID`: reads `<id>.json`; a missing file is
the absent (nil, nil) outcome, a failed load is an error. -/
def fileGetByID (store : Store) (id : String) (now : Int) :
    Except String (Option TrackedDeployment) :=
  match store.find? (fun e => e.1 == id) with
  | none => .ok none
  | some e => (loadContent e.2 now).map some

/-- Go `FileTrackerRepository.ListActive`: `List`, then the loop appending
exactly the records with `IsActive()`. -/
def fileListActive (store : Store) (now : Int) : List TrackedDeployment :=
  (fileList store now).foldl
    (fun acc td => if td.IsActive then acc ++ [td] else acc) []

/-- Go `FileTrackerRepository.Cleanup`: `List`s the store (each record loaded
at clock reading `loadNow`), then removes every loaded record for which
`IsStale(maxAge)` holds at clock reading `checkNow`, counting successful
removals.  `maxAgeSecs` is converted with `time.Duration(maxAgeSecs) *
time.Second`, the identity in this seconds-based model. -/
def fileCleanup (store : Store) (maxAgeSecs : Int) (loadNow checkNow : Int) :
    Int × Store :=
  (fileList store loadNow).foldl
    (fun acc td =>
      if td.IsStale maxAgeSecs checkNow then (acc.1 + 1, fileRemove acc.2 td.id)
      else acc)
    (0, store)

/-! ## Reconciliation engine (`application/status_orchestrator.go`) -/

/-- The Run Source Gateway's `GetRun`, as consumed by the engine: Go returns a
pair `(run *Run, err error)` and the engine acts only when
`err == nil && run != nil`, i.e. on `.ok (some run)`. -/
abbrev Gateway := String → Except String (Option Run)

/-- The per-record merge in `StatusOrchestrator.ListTracked`/`GetTracked` on a
successful Gateway answer: copy the observed status, and copy the conclusion
only when it is non-empty. -/
def mergeRun (td : TrackedDeployment) (run : Run) (now : Int) : TrackedDeployment :=
  let td1 := td.UpdateStatus run.status
  if run.conclusion ≠ "" then td1.UpdateConclusion run.conclusion now else td1

/-- The body of the refresh loop in `StatusOrchestrator.ListTracked` for one
record: inactive records are passed through untouched; for an active record
the Gateway is queried, and only an `err == nil && run != nil` answer is
merged and saved back (a `Save` failure is logged and ignored; in the model
`Save` is total).  The accumulator carries the refreshed list so far and the
evolving store. -/
def refreshStep (gw : Gateway) (now : Int) (acc : List TrackedDeployment × Store)
    (td : TrackedDeployment) : List TrackedDeployment × Store :=
  if td.IsActive then
    match gw td.runID with
    | .ok (some run) =>
      let td2 := mergeRun td run now
      (acc.1 ++ [td2], fileSave acc.2 td2)
    | _ => (acc.1 ++ [td], acc.2)
  else (acc.1 ++ [td], acc.2)

/-- The value the refresh loop leaves at one record's slot (the functional
view of `refreshStep`'s first component). -/
def refreshOne (gw : Gateway) (now : Int) (td : TrackedDeployment) : TrackedDeployment :=
  if td.IsActive then
    match gw td.runID with
    | .ok (some run) => mergeRun td run now
    | _ => td
  else td

/-- `StatusOrchestrator.cleanupStale`: `Cleanup` with a 7-day retention
window, `7 * 24 * 60 * 60 = 604800` seconds. -/
def cleanupStale (store : Store) (now : Int) : Store :=
  (fileCleanup store 604800 now now).2

/-- Go `StatusOrchestrator.ListTracked`: loads every record from the store,
refreshes the active ones against the Gateway (persisting each merged record),
then runs the best-effort stale cleanup, whose result is discarded.  Returns
the refreshed collection (computed before the cleanup) and the resulting
store.  The only error path in Go is a failing store `List`, which the model's
total `List` cannot produce, so the result is error-free by construction;
Gateway failures are swallowed per record. -/
def listTracked (store : Store) (gw : Gateway) (now : Int) :
    List TrackedDeployment × Store :=
  let tracked := fileList store now
  let res := tracked.foldl (refreshStep gw now) ([], store)
  (res.1, cleanupStale res.2 now)

/-- Go `StatusOrchestrator.TrackDeployment`: builds a fresh record and saves it. -/
def trackDeployment (store : Store) (runID : String) (workflow : Workflow)
    (branch : String) (repo : String) (now : Int) : TrackedDeployment × Store :=
  let td := NewTrackedDeployment runID workflow branch repo now
  (td, fileSave store td)

/-- Go `StatusOrchestrator.GetTracked`: loads one record; a store error is
surfaced, absence is `.ok none`; an active record gets the same single-record
refresh-and-persist as `ListTracked`, with Gateway failures swallowed. -/
def getTracked (store : Store) (gw : Gateway) (id : String) (now : Int) :
    Except String (Option TrackedDeployment × Store) :=
  match fileGetByID store id now with
  | .error e => .error e
  | .ok none => .ok (none, store)
  | .ok (some td) =>
    if td.IsActive then
      match gw td.runID with
      | .ok (some run) =>
        let td2 := mergeRun td run now
        .ok (some td2, fileSave store td2)
      | _ => .ok (some td, store)
    else .ok (some td, store)

/-- Go `StatusOrchestrator.DismissTracked`: delegates to the store's `Remove`,
which never fails in the model (missing file is a no-op success). -/
def dismissTracked (store : Store) (id : String) : Store :=
  fileRemove store id

/-! ## Concrete inputs for counterexamples and witnesses -/

/-- A sample workflow value used for concrete counterexamples and witnesses. -/
def wfDeploy : Workflow := { name := "deploy.yml", id := "" }

/-- A sample tracked deployment created at time 0. -/
def tdSample : TrackedDeployment :=
  NewTrackedDeployment "run-1" wfDeploy "main" "owner/repo" 0

/-- C1 counterexample input: record completed once at time 10, then a second
`UpdateConclusion` arrives at time 20. -/
def tdOnce : TrackedDeployment := tdSample.UpdateConclusion RunConclusionSuccess 10

def tdTwice : TrackedDeployment := tdOnce.UpdateConclusion RunConclusionFailure 20

/-- C6 counterexample input: a record completed at time 0. -/
def tdCompletedAtZero : TrackedDeployment := tdSample.UpdateConclusion RunConclusionSuccess 0

/-- The entity whose persisted form is the record `r` — the inverse of
`toRecord`, reading the stored fields (including the stored timestamps) back
verbatim.  Used to state what a stored record says, independently of the
(lossy) `loadFromFile` reconstruction. -/
def recordAsEntity (r : TrackedRecord) : TrackedDeployment :=
  { id := r.ID
    runID := r.RunID
    workflow := { name := r.Workflow, id := "" }
    branch := r.Branch
    status := r.Status
    conclusion := r.Conclusion
    startedAt := r.StartedAt
    completedAt := r.CompletedAt
    repo := r.Repo }

/-- C3 failing input: a persisted record that completed at time 0 (long ago). -/
def recStale : TrackedRecord :=
  { ID := "run-1"
    RunID := "run-1"
    Workflow := "deploy.yml"
    Branch := "main"
    Status := "completed"
    Conclusion := "success"
    StartedAt := 0
    CompletedAt := some 0
    Repo := "owner/repo" }

def storeStale : Store := [("run-1", .valid recStale)]

/-- A persisted record that is still in progress (started at time 0). -/
def recActive : TrackedRecord :=
  { ID := "run-1"
    RunID := "run-1"
    Workflow := "deploy.yml"
    Branch := "main"
    Status := "in_progress"
    Conclusion := ""
    StartedAt := 0
    CompletedAt := none
    Repo := "owner/repo" }

def storeActive : Store := [("run-1", .valid recActive)]

/-- A Gateway that fails every `GetRun` (network error / timeout). -/
def gwError : Gateway := fun _ => .error "network error"

/-- A Gateway answer with status completed but an empty conclusion (the
malformed/partial remote response of the edge-case policy). -/
def runCompletedEmpty : Run :=
  { id := "run-1"
    number := 1
    status := "completed"
    conclusion := ""
    branch := "main"
    createdAt := 0
    startedAt := none
    completedAt := none
    url := "" }

def gwCompletedEmpty : Gateway := fun _ => .ok (some runCompletedEmpty)

/-- A Gateway answer with status completed and conclusion success. -/
def runCompletedSuccess : Run :=
  { runCompletedEmpty with conclusion := "success" }

def gwCompletedSuccess : Gateway := fun _ => .ok (some runCompletedSuccess)

/-- Modelled from the spec: `ListActive()` as the spec words it — "equivalent
to `List()` filtered by `IsActive()`" — to be compared with the source's
loop-based `fileListActive`. -/
def specListActive (store : Store) (now : Int) : List TrackedDeployment :=
  (fileList store now).filter (fun td => td.IsActive)

/-! ## Theorems -/

/-- Folding the `List` scan from any accumulator prepends the accumulator. -/
theorem fileList_foldl_acc (now : Int) (store : Store) (acc : List TrackedDeployment) :
    store.foldl
      (fun acc e =>
        match loadContent e.2 now with
        | .ok td => acc ++ [td]
        | .error _ => acc) acc
      = acc ++ fileList store now := by
  induction store generalizing acc with
  | nil => simp [fileList]
  | cons e rest ih =>
    simp only [fileList, List.foldl_cons]
    cases h : loadContent e.2 now with
    | ok td =>
      simp only [h]
      rw [ih (acc ++ [td]), ih ([] ++ [td])]
      simp
    | error msg =>
      simp only [h]
      rw [ih acc, ih []]
      simp

/-- The `List` scan returns exactly the successfully loaded records, in
directory order. -/
theorem fileList_eq_filterMap (store : Store) (now : Int) :
    fileList store now = store.filterMap (fun e => (loadContent e.2 now).toOption) := by
  induction store with
  | nil => rfl
  | cons e rest ih =>
    simp only [fileList, List.foldl_cons, List.filterMap_cons]
    rw [fileList_foldl_acc]
    cases h : loadContent e.2 now with
    | ok td => simp [h, Except.toOption, ih]
    | error msg => simp [h, Except.toOption, ih]

/-- The `ListActive` accumulation loop is a filter. -/
theorem listActive_foldl_acc (xs : List TrackedDeployment) (acc : List TrackedDeployment) :
    xs.foldl (fun acc td => if td.IsActive then acc ++ [td] else acc) acc
      = acc ++ xs.filter (fun td => td.IsActive) := by
  induction xs generalizing acc with
  | nil => simp
  | cons td rest ih =>
    simp only [List.foldl_cons, List.filter_cons]
    cases h : td.IsActive <;> simp [h, ih]

/-- The refresh loop body appends exactly the per-record refreshed value. -/
theorem refreshStep_fst (gw : Gateway) (now : Int) (acc : List TrackedDeployment × Store)
    (td : TrackedDeployment) :
    (refreshStep gw now acc td).1 = acc.1 ++ [refreshOne gw now td] := by
  cases h : td.IsActive with
  | false => simp [refreshStep, refreshOne, h]
  | true =>
    cases hg : gw td.runID with
    | error e => simp [refreshStep, refreshOne, h, hg]
    | ok o => cases o <;> simp [refreshStep, refreshOne, h, hg]

/-- The refresh loop, as a whole, maps `refreshOne` over the loaded records. -/
theorem refresh_foldl_fst (gw : Gateway) (now : Int) (tds : List TrackedDeployment) :
    ∀ acc : List TrackedDeployment × Store,
      (tds.foldl (refreshStep gw now) acc).1 = acc.1 ++ tds.map (refreshOne gw now) := by
  induction tds with
  | nil => intro acc; simp
  | cons td rest ih =>
    intro acc
    simp only [List.foldl_cons, List.map_cons]
    rw [ih, refreshStep_fst]
    simp

/-- The collection `ListTracked` returns is the loaded collection with each
record refreshed in place. -/
theorem listTracked_fst (store : Store) (gw : Gateway) (now : Int) :
    (listTracked store gw now).1 = (fileList store now).map (refreshOne gw now) := by
  simp [listTracked, refresh_foldl_fst]

/-- After `Remove(id)`, no entry named `id` remains to be found. -/
theorem find?_fileRemove (store : Store) (id : String) :
    (fileRemove store id).find? (fun e => e.1 == id) = none := by
  induction store with
  | nil => rfl
  | cons e rest ih =>
    by_cases h : e.1 = id
    · simp [fileRemove, List.filter_cons, h]
    · simp [fileRemove, List.filter_cons, List.find?_cons, h]

/-- `Remove(id)` twice is the same as once. -/
theorem fileRemove_idem (store : Store) (id : String) :
    fileRemove (fileRemove store id) id = fileRemove store id := by
  induction store with
  | nil => rfl
  | cons e rest ih =>
    by_cases h : e.1 = id
    · simp [fileRemove, List.filter_cons, h]
    · simp [fileRemove, List.filter_cons, h]

/-- C1: the claim "a second call to UpdateConclusion leaves CompletedAt equal to
the value it had after the first call" is false on the code: `UpdateConclusion`
stamps `completedAt` unconditionally, so a second call at a later clock reading
moves the completion timestamp (here from 10 to 20). -/
theorem updateConclusion_second_call_moves_completedAt :
    tdTwice.completedAt ≠ tdOnce.completedAt := by
  decide

/-- C1 (amended): a second call to `UpdateConclusion` re-stamps `CompletedAt`
with the clock reading of the second call — after two calls `CompletedAt` is
the second call's time, not the first's. -/
theorem updateConclusion_restamps_completedAt (td : TrackedDeployment)
    (c₁ c₂ : RunConclusion) (t₁ t₂ : Int) :
    ((td.UpdateConclusion c₁ t₁).UpdateConclusion c₂ t₂).completedAt = some t₂ := by
  rfl

/-- C6: the claim's conjunct "a record completed maxAge ago is stale" is false
on the code: `IsStale` compares strictly, so a record completed exactly
`maxAge = 100` seconds before `now = 100` is not stale. -/
theorem isStale_completed_exactly_maxAge_ago_not_stale :
    tdCompletedAtZero.IsStale 100 100 = false := by
  decide

/-- C6 (amended): `IsStale` branches on presence of the completion timestamp:
when `completedAt` is set, the record is stale exactly when `now - completedAt`
is strictly greater than `maxAge` (so completed exactly `maxAge` ago is not
stale, and completed `maxAge / 2` ago with `0 ≤ maxAge` is not stale); when
`completedAt` is nil — in particular for in-progress records — the record is
stale exactly when `now - startedAt > maxAge`. -/
theorem isStale_characterisation (td : TrackedDeployment) (maxAge now : Int) :
    (∀ c, td.completedAt = some c →
      (td.IsStale maxAge now = true ↔ now - c > maxAge)) ∧
    (td.completedAt = none →
      (td.IsStale maxAge now = true ↔ now - td.startedAt > maxAge)) ∧
    (∀ c, td.completedAt = some c → now - c = maxAge →
      td.IsStale maxAge now = false) ∧
    (∀ c, td.completedAt = some c → 0 ≤ maxAge → now - c = maxAge / 2 →
      td.IsStale maxAge now = false) ∧
    (td.completedAt = none → now - td.startedAt > maxAge →
      td.IsStale maxAge now = true) := by
  refine ⟨?_, ?_, ?_, ?_, ?_⟩
  · intro c hc
    simp [TrackedDeployment.IsStale, hc]
  · intro hc
    simp [TrackedDeployment.IsStale, hc]
  · intro c hc he
    simp [TrackedDeployment.IsStale, hc, he]
  · intro c hc hnn he
    have hle : maxAge / 2 ≤ maxAge := by omega
    simp [TrackedDeployment.IsStale, hc, he]
    omega
  · intro hc hgt
    simp [TrackedDeployment.IsStale, hc, hgt]

/-- C6 witness: the characterisation applied to concrete records — an
in-progress record started 200 before `now` is stale with `maxAge = 100`, and a
record completed `maxAge / 2 = 50` ago is not. -/
theorem isStale_characterisation_witness :
    (NewTrackedDeployment "run-1" wfDeploy "main" "owner/repo" 0).IsStale 100 200 = true ∧
    tdCompletedAtZero.IsStale 100 50 = false := by
  constructor
  · exact (isStale_characterisation
      (NewTrackedDeployment "run-1" wfDeploy "main" "owner/repo" 0) 100 200).2.2.2.2
      rfl (by decide)
  · exact (isStale_characterisation tdCompletedAtZero 100 50).2.2.2.1 0 rfl
      (by decide) (by decide)

/-- C2: `Save` followed by `GetByID` does not yield the record that was saved.
`loadFromFile` rebuilds the entity with `NewTrackedDeployment` (stamping
`startedAt` with the load-time clock, here 100, instead of the persisted
`started_at`) and re-runs `UpdateConclusion` (stamping `completedAt` with the
load time instead of the persisted `completed_at`), even though `Save` wrote
both timestamps to the JSON file.  Here a record started at 0 comes back
started at 100, and a record completed at 10 comes back completed at 100. -/
theorem save_then_getByID_loses_timestamps :
    fileGetByID (fileSave [] tdSample) "run-1" 100 ≠ .ok (some tdSample) ∧
    fileGetByID (fileSave [] tdSample) "run-1" 100 =
      .ok (some { tdSample with startedAt := 100 }) ∧
    fileGetByID (fileSave [] tdOnce) "run-1" 100 =
      .ok (some { tdOnce with startedAt := 100, completedAt := some 100 }) := by
  decide

/-- C3: `Cleanup` removes nothing, even from a store holding a record whose
persisted state is long stale.  `Cleanup` judges staleness on the records
`List` loads, and `loadFromFile` resets every timestamp to the load-time
clock, so the loaded record's elapsed time is always (about) zero.  Here the
store holds one record completed at time 0; at `now = 1000` with
`maxAge = 10` that persisted record is stale by `IsStale`, yet `Cleanup`
returns 0, leaves the store unchanged, and `List` still returns the record. -/
theorem cleanup_never_removes_stale_record :
    (recordAsEntity recStale).IsStale 10 1000 = true ∧
    fileCleanup storeStale 10 1000 1000 = (0, storeStale) ∧
    fileList storeStale 1000 ≠ [] := by
  decide

/-- C3 (general form of the defect): whenever the staleness check runs within
`maxAge` of the load (always, in practice: they are microseconds apart and the
retention window is 7 days), `Cleanup` removes nothing and returns 0,
regardless of the persisted timestamps. -/
theorem loadRecord_timestamps (r : TrackedRecord) (now : Int) (td : TrackedDeployment)
    (h : loadRecord r now = .ok td) :
    td.startedAt = now ∧ (td.completedAt = none ∨ td.completedAt = some now) := by
  unfold loadRecord at h
  split at h
  · exact absurd h (by simp)
  · split at h
    · injection h with h₂
      subst h₂
      exact ⟨rfl, Or.inr rfl⟩
    · injection h with h₂
      subst h₂
      exact ⟨rfl, Or.inl rfl⟩

theorem cleanup_foldl_no_stale (maxAge checkNow : Int) (tds : List TrackedDeployment)
    (h : ∀ td ∈ tds, td.IsStale maxAge checkNow = false) :
    ∀ acc : Int × Store,
      tds.foldl
        (fun acc td =>
          if td.IsStale maxAge checkNow then (acc.1 + 1, fileRemove acc.2 td.id)
          else acc) acc = acc := by
  induction tds with
  | nil => intro acc; rfl
  | cons td rest ih =>
    intro acc
    have h0 := h td (by simp)
    simp only [List.foldl_cons, h0, Bool.false_eq_true, if_false]
    exact ih (fun x hx => h x (by simp [hx])) acc

theorem cleanup_noop_within_maxAge (store : Store) (maxAge loadNow checkNow : Int)
    (h : checkNow - loadNow ≤ maxAge) :
    fileCleanup store maxAge loadNow checkNow = (0, store) := by
  have hstale : ∀ td ∈ fileList store loadNow, td.IsStale maxAge checkNow = false := by
    intro td hmem
    rw [fileList_eq_filterMap] at hmem
    rcases List.mem_filterMap.mp hmem with ⟨e, _, he⟩
    have hload : loadContent e.2 loadNow = .ok td := by
      cases hc : loadContent e.2 loadNow with
      | ok td₂ => rw [hc] at he; simp [Except.toOption] at he; rw [he]
      | error msg => rw [hc] at he; simp [Except.toOption] at he
    rcases e with ⟨n, c⟩
    cases c with
    | corrupt => simp [loadContent] at hload
    | valid r =>
      have hts := loadRecord_timestamps r loadNow td (by simpa [loadContent] using hload)
      rcases hts with ⟨hs, hc₂ | hc₂⟩ <;>
        simp [TrackedDeployment.IsStale, hc₂, hs] <;> omega
  exact cleanup_foldl_no_stale maxAge checkNow (fileList store loadNow) hstale (0, store)

/-- C3 witness for the general form: on the concrete stale store, with load
and check both at time 1000 and `maxAge = 10`, nothing is removed. -/
theorem cleanup_noop_within_maxAge_witness :
    fileCleanup storeStale 10 1000 1000 = (0, storeStale) :=
  cleanup_noop_within_maxAge storeStale 10 1000 1000 (by decide)

/-- C4: the claim that a record whose refresh observed status "completed" with
an empty conclusion "remains eligible for re-querying on the next pass" is
false: the engine copies the completed status, after which `IsActive` is
false, so the next `ListTracked` pass does not query the Gateway for it.
Concretely: after one pass seeing (completed, ""), the returned record is
inactive; a second pass against a Gateway now reporting conclusion "success"
leaves the stored record's conclusion empty — it was never re-queried. -/
theorem completed_empty_conclusion_not_requeried :
    ((listTracked storeActive gwCompletedEmpty 0).1.map
      (fun td => td.IsActive) = [false]) ∧
    ((listTracked (listTracked storeActive gwCompletedEmpty 0).2
        gwCompletedSuccess 0).1.map
      (fun td => td.conclusion) = [""]) := by
  decide

/-- C4 (amended): on a Gateway answer with status completed but empty
conclusion, the refresh applies only the status: the record's conclusion and
`CompletedAt` are untouched (no terminal outcome is fabricated), the merged
record is persisted, and — because its status is now completed — it is no
longer active, so later passes will not re-query it. -/
theorem completed_empty_conclusion_refresh (gw : Gateway) (now : Int)
    (acc : List TrackedDeployment × Store) (td : TrackedDeployment) (run : Run)
    (hact : td.IsActive = true) (hgw : gw td.runID = .ok (some run))
    (hconc : run.conclusion = "") (hstat : run.status = RunStatusCompleted) :
    refreshStep gw now acc td =
      (acc.1 ++ [td.UpdateStatus RunStatusCompleted],
        fileSave acc.2 (td.UpdateStatus RunStatusCompleted)) ∧
    (td.UpdateStatus RunStatusCompleted).conclusion = td.conclusion ∧
    (td.UpdateStatus RunStatusCompleted).completedAt = td.completedAt ∧
    (td.UpdateStatus RunStatusCompleted).IsActive = false := by
  refine ⟨?_, rfl, rfl, ?_⟩
  · simp [refreshStep, hact, hgw, mergeRun, hconc, hstat]
  · simp [TrackedDeployment.IsActive, TrackedDeployment.UpdateStatus,
      RunStatusCompleted, RunStatusInProgress, RunStatusQueued]

/-- C4 witness for the amended statement, at the concrete malformed answer. -/
theorem completed_empty_conclusion_refresh_witness :
    refreshStep gwCompletedEmpty 0 ([], storeActive) (recordAsEntity recActive) =
      (([] : List TrackedDeployment) ++
          [(recordAsEntity recActive).UpdateStatus RunStatusCompleted],
        fileSave storeActive
          ((recordAsEntity recActive).UpdateStatus RunStatusCompleted)) :=
  (completed_empty_conclusion_refresh gwCompletedEmpty 0 ([], storeActive)
    (recordAsEntity recActive) runCompletedEmpty (by decide) rfl rfl rfl).1

/-- C5: a Gateway failure for an active record during `ListTracked` leaves the
record exactly as loaded in the returned collection, and neither `ListTracked`
nor `GetTracked` surfaces a Gateway error: whenever the store read succeeds,
`GetTracked` returns `.ok` whatever the Gateway does. -/
theorem gateway_error_preserves_record (store : Store) (gw : Gateway) (now : Int)
    (r : TrackedDeployment) (msg : String)
    (hmem : r ∈ fileList store now) (hact : r.IsActive = true)
    (hgw : gw r.runID = .error msg) :
    r ∈ (listTracked store gw now).1 ∧
    (∀ (store₂ : Store) (id₂ : String) (opt : Option TrackedDeployment),
      fileGetByID store₂ id₂ now = .ok opt →
      ∃ out, getTracked store₂ gw id₂ now = .ok out) := by
  constructor
  · rw [listTracked_fst]
    have hfix : refreshOne gw now r = r := by
      simp [refreshOne, hact, hgw]
    have := List.mem_map_of_mem (refreshOne gw now) hmem
    rwa [hfix] at this
  · intro store₂ id₂ opt h
    unfold getTracked
    rw [h]
    match opt with
    | none => exact ⟨(none, store₂), rfl⟩
    | some td =>
      cases hact₂ : td.IsActive
      · simp [hact₂]
      · cases hg : gw td.runID with
        | error e => simp [hact₂, hg]
        | ok o => cases o <;> simp [hact₂, hg]

/-- C5 witness: one active stored record, a Gateway that always fails: the
loaded record is in the returned collection unmodified. -/
theorem gateway_error_preserves_record_witness :
    recordAsEntity recActive ∈ (listTracked storeActive gwError 0).1 :=
  (gateway_error_preserves_record storeActive gwError 0
    (recordAsEntity recActive) "network error" (by decide) (by decide) rfl).1

/-- C7: dismissal is an idempotent no-op success.  `Remove` is total in the
model (a missing file maps to a no-op success), so `DismissTracked` returns no
error for any id, on any store, any number of times; dismissing twice equals
dismissing once; and after either dismissal `GetTracked` returns the absent
outcome `(nil, nil)` — absence is `.ok none`, never an error. -/
theorem dismiss_idempotent_getTracked_absent (store : Store) (gw : Gateway)
    (id : String) (now : Int) :
    dismissTracked (dismissTracked store id) id = dismissTracked store id ∧
    fileGetByID (dismissTracked store id) id now = .ok none ∧
    getTracked (dismissTracked store id) gw id now =
      .ok (none, dismissTracked store id) := by
  have hget : fileGetByID (dismissTracked store id) id now = .ok none := by
    unfold fileGetByID dismissTracked
    rw [find?_fileRemove]
  refine ⟨fileRemove_idem store id, hget, ?_⟩
  unfold getTracked
  rw [hget]

/-- C8: the store's `List` is total and robust: the empty (or non-existent,
which `os.IsNotExist` maps to empty) store yields the empty collection with no
error; a corrupt record file anywhere in the scan is skipped rather than
aborting it, and every other loadable record is still returned. -/
theorem list_total_skips_corrupt (pre post : Store) (name : String) (now : Int) :
    fileList [] now = [] ∧
    fileList (pre ++ (name, FileContent.corrupt) :: post) now
      = fileList (pre ++ post) now ∧
    (∀ e ∈ pre ++ post, ∀ td, loadContent e.2 now = .ok td →
      td ∈ fileList (pre ++ (name, FileContent.corrupt) :: post) now) := by
  refine ⟨rfl, ?_, ?_⟩
  · rw [fileList_eq_filterMap, fileList_eq_filterMap]
    simp [List.filterMap_append, List.filterMap_cons, loadContent, Except.toOption]
  · intro e hmem td hload
    rw [fileList_eq_filterMap]
    refine List.mem_filterMap.mpr ⟨e, ?_, by simp [hload, Except.toOption]⟩
    rcases List.mem_append.mp hmem with h | h
    · exact List.mem_append.mpr (Or.inl h)
    · exact List.mem_append.mpr (Or.inr (List.mem_cons_of_mem _ h))

/-- C8 witness: a two-file store where the second file is corrupt lists the
same single record as the store without the corrupt file. -/
theorem list_total_skips_corrupt_witness :
    fileList [("run-1", FileContent.valid recActive),
      ("bad", FileContent.corrupt)] 0
      = fileList [("run-1", FileContent.valid recActive)] 0 :=
  (list_total_skips_corrupt [("run-1", FileContent.valid recActive)] [] "bad" 0).2.1

/-- C9: the store's `ListActive` (the source's accumulate-if-active loop over
`List`) returns exactly `List` filtered by `IsActive()` — the spec-worded
`specListActive`. -/
theorem listActive_eq_list_filter_isActive (store : Store) (now : Int) :
    fileListActive store now = specListActive store now := by
  unfold fileListActive specListActive
  rw [listActive_foldl_acc]
  rfl

/-- C10: an inactive record is left entirely untouched by the refresh loop:
the loop body returns it exactly as loaded, writes nothing to the store,
and makes no Gateway call — the step's outcome is identical under any two
Gateways — and the record (as loaded) is in the collection `ListTracked`
returns. -/
theorem inactive_record_untouched (gw gw₂ : Gateway) (now : Int)
    (acc : List TrackedDeployment × Store) (td : TrackedDeployment)
    (h : td.IsActive = false) :
    refreshStep gw now acc td = (acc.1 ++ [td], acc.2) ∧
    refreshStep gw now acc td = refreshStep gw₂ now acc td ∧
    (∀ store : Store, td ∈ fileList store now → td ∈ (listTracked store gw now).1) := by
  refine ⟨by simp [refreshStep, h], by simp [refreshStep, h], ?_⟩
  intro store hmem
  rw [listTracked_fst]
  have hfix : refreshOne gw now td = td := by simp [refreshOne, h]
  have := List.mem_map_of_mem (refreshOne gw now) hmem
  rwa [hfix] at this

/-- C10 witness: a completed record flows through the refresh loop body
unchanged, with no store write, under a failing Gateway. -/
theorem inactive_record_untouched_witness :
    refreshStep gwError 0 ([], storeStale) tdCompletedAtZero
      = (([] : List TrackedDeployment) ++ [tdCompletedAtZero], storeStale) :=
  (inactive_record_untouched gwError gwCompletedSuccess 0 ([], storeStale)
    tdCompletedAtZero (by decide)).1
